import Mathlib

/-!
A verification development for the `umces_pot_survey_to_dwc` repository.

The repository consists of two scripts:

* `build_schema.py` — the Schema Assembler: concatenates LinkML schema
  fragments (metadata, enums, classes, and one file per slot) into a single
  combined schema file;
* `generate_docs.py` — the Documentation Generator: renders a loaded schema
  model into per-element markdown pages, an index page, and an mkdocs
  navigation configuration.

Both scripts are shallowly embedded below.  File contents are Lean `String`s
(LF-terminated ASCII text, which is what the repository's YAML fragments
contain); the file system touched by the assembler is an association list of
paths to contents; the schema model produced by the external `linkml_runtime`
library is a record of association lists mirroring the attributes the scripts
access.  Python's stable `sorted` is modelled by `List.insertionSort`, which
produces the unique stable sort for a total preorder.
-/

namespace PyStr

/-- The ASCII whitespace characters recognised by Python `str.strip()`. -/
def isSpaceChar (c : Char) : Bool :=
  c = ' ' || c = '\t' || c = '\n' || c = '\r' || c = '\x0b' || c = '\x0c'

/-- Truthiness of Python `line.strip()`: a line is blank iff every character
is whitespace (in particular the empty line is blank). -/
def isBlank (s : String) : Bool :=
  s.data.all isSpaceChar

/-- Split a character list on a separator character, keeping empty pieces.
The result is always nonempty (splitting the empty text yields one empty
piece), matching Python `str.split(sep)`. -/
def splitCh (sep : Char) : List Char → List (List Char)
  | [] => [[]]
  | c :: cs =>
    let r := splitCh sep cs
    if c = sep then [] :: r else (c :: r.headD []) :: r.tail

/-- Python `str.splitlines()` for LF-terminated text: the empty string has no
lines, and a trailing newline does not produce a trailing empty line. -/
def splitlinesChars (cs : List Char) : List (List Char) :=
  match cs with
  | [] => []
  | _ :: _ =>
    let parts := splitCh '\n' cs
    if parts.getLast? = some [] then parts.dropLast else parts

/-- Python `str.splitlines()` on strings. -/
def pySplitlines (s : String) : List String :=
  (splitlinesChars s.data).map String.mk

/-- Join line bodies back into text, terminating every line with an LF. -/
def joinNL : List (List Char) → List Char
  | [] => []
  | p :: ps => p ++ '\n' :: joinNL ps

/-- Python `x or d` for a string-or-None value `x`: the default is taken both
when the value is absent and when it is the (falsy) empty string. -/
def pyOr (v : Option String) (d : String) : String :=
  match v with
  | none => d
  | some s => if s = "" then d else s

/-- Truthiness of a string-or-None value: `None` and `""` are falsy. -/
def pyTruthy : Option String → Bool
  | none => false
  | some s => s != ""

/-- Python case-insensitive sort key: `str.lower()` (ASCII letters, as in
`Char.toLower`, which is what the schema element names use). -/
def lowerChars (s : String) : List Char :=
  s.data.map Char.toLower

/-- Lexicographic comparison of character lists by code point, the order
Python uses on strings. -/
def lexLe : List Char → List Char → Bool
  | [], _ => true
  | _ :: _, [] => false
  | a :: as, b :: bs =>
    if a.toNat < b.toNat then true
    else if b.toNat < a.toNat then false
    else lexLe as bs

/-- The comparison underlying `sorted(names, key=lambda x: x.lower())`. -/
def keyLe (a b : String) : Bool :=
  lexLe (lowerChars a) (lowerChars b)

/-- Whether `pre` is a leading substring of `s`. -/
def strStartsWith (s pre : String) : Bool :=
  pre.data.isPrefixOf s.data

/-- `keyLe` as a binary relation, for use with `List.insertionSort`. -/
def ciLe (a b : String) : Prop :=
  keyLe a b = true

instance : DecidableRel ciLe :=
  fun a b => inferInstanceAs (Decidable (keyLe a b = true))

/-- Unfolding of `lexLe` on two nonempty lists, packaged as a definition so
the order's instances below can use it. -/
def lexLe_cons_iff (a b : Char) (as bs : List Char) :
    lexLe (a :: as) (b :: bs) = true ↔
      (a.toNat < b.toNat ∨ (a.toNat = b.toNat ∧ lexLe as bs = true)) := by
  simp only [lexLe]
  by_cases h1 : a.toNat < b.toNat
  · simp [h1]
  · by_cases h2 : b.toNat < a.toNat
    · simp [h1, h2]
      omega
    · have h3 : a.toNat = b.toNat := by omega
      simp [h1, h2, h3]

/-- Totality of the lexicographic comparison. -/
def lexLe_total_pf : ∀ as bs : List Char, lexLe as bs = true ∨ lexLe bs as = true := by
  intro as
  induction as with
  | nil => intro bs; left; rfl
  | cons a as ih =>
    intro bs
    cases bs with
    | nil => right; rfl
    | cons b bs =>
      rw [lexLe_cons_iff, lexLe_cons_iff]
      rcases Nat.lt_trichotomy a.toNat b.toNat with h | h | h
      · left; exact Or.inl h
      · rcases ih bs with h' | h'
        · exact Or.inl (Or.inr ⟨h, h'⟩)
        · exact Or.inr (Or.inr ⟨h.symm, h'⟩)
      · right; exact Or.inl h

/-- Transitivity of the lexicographic comparison. -/
def lexLe_trans_pf : ∀ as bs cs : List Char,
    lexLe as bs = true → lexLe bs cs = true → lexLe as cs = true := by
  intro as
  induction as with
  | nil => intro bs cs _ _; rfl
  | cons a as ih =>
    intro bs cs h1 h2
    cases bs with
    | nil => simp [lexLe] at h1
    | cons b bs =>
      cases cs with
      | nil => simp [lexLe] at h2
      | cons c cs =>
        rw [lexLe_cons_iff] at h1 h2 ⊢
        rcases h1 with h1 | ⟨h1e, h1r⟩
        · rcases h2 with h2 | ⟨h2e, _⟩
          · exact Or.inl (Nat.lt_trans h1 h2)
          · exact Or.inl (h2e ▸ h1)
        · rcases h2 with h2 | ⟨h2e, h2r⟩
          · exact Or.inl (h1e ▸ h2)
          · exact Or.inr ⟨h1e.trans h2e, ih bs cs h1r h2r⟩

instance : IsTotal String ciLe :=
  ⟨fun a b => lexLe_total_pf (lowerChars a) (lowerChars b)⟩

instance : IsTrans String ciLe :=
  ⟨fun _ _ _ h1 h2 => lexLe_trans_pf _ _ _ h1 h2⟩

end PyStr

namespace BuildSchema

open PyStr

/-- A file system: an association list from path to content, first match
wins, plus the listing of the `slots/` directory as (filename, content)
pairs.  `build_schema.py` reads its three fixed fragment files through
`files` and iterates over `slotsDir` via `Path('slots').glob('*.yaml')`. -/
structure World where
  files : List (String × String)
  slotsDir : List (String × String)

/-- Look a path up in an association list of files. -/
def getFile : List (String × String) → String → Option String
  | [], _ => none
  | f :: fs, p => if f.1 = p then some f.2 else getFile fs p

/-- Overwrite (or create) the file at a path. -/
def setFile : List (String × String) → String → String → List (String × String)
  | [], p, c => [(p, c)]
  | f :: fs, p, c => if f.1 = p then (p, c) :: fs else f :: setFile fs p c

/-- Read a file; `none` models `FileNotFoundError`. -/
def readFile (w : World) (p : String) : Option String :=
  getFile w.files p

/-- Write a file, truncating any previous content. -/
def writeFile (w : World) (p : String) (c : String) : World :=
  { w with files := setFile w.files p c }

/-- Append to an already-opened output file (one `out.write(...)` call). -/
def appendOut (w : World) (p : String) (s : String) : World :=
  writeFile w p (((readFile w p).getD "") ++ s)

def metadataPath : String := "other_elements/schema_metadata.yml"

def enumsPath : String := "other_elements/enums.yml"

def classesPath : String := "other_elements/classes.yml"

/-- The five comment-banner lines written before the slots section. -/
def sectionBanner : String :=
  "################################################################################\n" ++
  "# SLOTS - FIELD DEFINITIONS\n" ++
  "# Here is where we describe the column names from MOB data and conceptually\n" ++
  "# map them to DwC\n" ++
  "################################################################################\n"

/-- The glob pattern `*.yaml`: the name must end in `.yaml`, and a leading
`*` does not match hidden files (names starting with a dot). -/
def matchesYamlGlob (name : String) : Bool :=
  (".yaml").data.isSuffixOf name.data &&
    !(match name.data with
      | c :: _ => c = '.'
      | [] => false)

/-- Comparison of directory entries by filename.  The script sorts the glob
results, which are paths sharing the prefix `slots/`, so path order is
filename order. -/
def pathLe (a b : String × String) : Prop :=
  lexLe a.1.data b.1.data = true

instance : DecidableRel pathLe :=
  fun a b => inferInstanceAs (Decidable (lexLe a.1.data b.1.data = true))

instance : IsTotal (String × String) pathLe :=
  ⟨fun a b => lexLe_total_pf a.1.data b.1.data⟩

instance : IsTrans (String × String) pathLe :=
  ⟨fun _ _ _ h1 h2 => lexLe_trans_pf _ _ _ h1 h2⟩

/-- `sorted(Path('slots').glob('*.yaml'))`: the `.yaml` entries of the slots
directory in lexicographic filename order. -/
def sortedSlotFiles (w : World) : List (String × String) :=
  List.insertionSort pathLe (w.slotsDir.filter (fun f => matchesYamlGlob f.1))

/-- What one loop iteration writes for a single line of a slot fragment:
`out.write(f'  {line}\n' if line.strip() else '\n')`. -/
def slotLineOut (line : String) : String :=
  if isBlank line then "\n" else "  " ++ line ++ "\n"

/-- Everything written for one slot fragment: each of its lines, re-indented
unless blank, followed by the blank separator line. -/
def slotBlock (content : String) : String :=
  ((pySplitlines content).foldl (fun acc line => acc ++ slotLineOut line) "") ++ "\n"

/-- The character-level body of what `slotLineOut` writes for one line,
before its terminating newline. -/
def indentChars (l : List Char) : List Char :=
  if l.all isSpaceChar then [] else ' ' :: ' ' :: l

/-- Concatenation of a list of strings. -/
def concatStrings : List String → String
  | [] => ""
  | s :: ss => s ++ concatStrings ss

/-- The module-level script of `build_schema.py`.  It opens the output file
for writing (truncating it) before the first fragment is read; each fragment
read may fail, terminating the run with the writes made so far flushed.
Returns the final file system and whether the run completed. -/
def runAssembler (w : World) (output : String) : World × Bool :=
  let w0 := writeFile w output ""
  match readFile w0 metadataPath with
  | none => (w0, false)
  | some m =>
    let w1 := appendOut w0 output (m ++ "\n")
    match readFile w1 enumsPath with
    | none => (w1, false)
    | some e =>
      let w2 := appendOut w1 output (e ++ "\n")
      match readFile w2 classesPath with
      | none => (w2, false)
      | some c =>
        let w3 := appendOut w2 output (c ++ "\n")
        let w4 := appendOut w3 output sectionBanner
        let w5 := appendOut w4 output ("\n")
        let w6 := appendOut w5 output ("slots:\n")
        let w7 := (sortedSlotFiles w6).foldl
          (fun acc f => appendOut acc output (slotBlock f.2)) w6
        (w7, true)

/-- The content of a fully assembled schema file, given the three fragment
contents and the slot files to process (already in processing order). -/
def assembledOutput (m e c : String) (slotFiles : List (String × String)) : String :=
  concatStrings ([m, "\n", e, "\n", c, "\n", sectionBanner, "\n", "slots:\n"] ++
    slotFiles.map (fun f => slotBlock f.2))

/-- A concrete file system with all three fragments and two slot files
(listed out of lexicographic order). -/
def c1world : World :=
  { files :=
      [(metadataPath, "id: https://example.org/pot\nname: pot_survey\n"),
       (enumsPath, "enums:\n  StageEnum:\n"),
       (classesPath, "classes:\n  Observation:\n")],
    slotsDir :=
      [(("b.yaml"), "b_slot:\n  description: two\n"),
       (("a.yaml"), "a_slot:\n\n  range: string\n")] }

/-- A concrete file system where the classes fragment is missing. -/
def c4world : World :=
  { files :=
      [(metadataPath, "id: https://example.org/pot\n"),
       (enumsPath, "enums:\n")],
    slotsDir := [(("a.yaml"), "a_slot:\n")] }

/-- A concrete file system where the enums fragment is missing. -/
def c10world : World :=
  { files := [(metadataPath, "id: https://example.org/pot\n")],
    slotsDir := [] }

end BuildSchema

namespace GenerateDocs

open PyStr

/-- A slot's `unit` attribute: either an object carrying a `symbol` (with an
optional `ucum_code`, defaulted to `""` by the script's `getattr`), or a
plain value rendered as-is. -/
inductive UnitInfo where
  | symObj (symbol : String) (ucum_code : String)
  | rawVal (v : String)
deriving DecidableEq

/-- An entry of a slot's `annotations` mapping: either an object with a
`value` attribute or a plain value rendered via `str`. -/
inductive AnnVal where
  | withValue (v : String)
  | plain (s : String)
deriving DecidableEq

/-- An entry of a slot's `examples` list: either an object with a `value`
attribute or a plain value rendered via `str`. -/
inductive ExampleVal where
  | withValue (v : String)
  | plain (s : String)
deriving DecidableEq

/-- The attributes of a LinkML slot definition that `generate_docs.py`
reads.  String-or-None attributes are `Option String`; `minimum_value` and
`maximum_value` are kept in their printed form. -/
structure SlotDef where
  name : String
  from_schema : Option String
  description : Option String
  comments : List String
  range : Option String
  required : Bool
  multivalued : Bool
  pattern : Option String
  minimum_value : Option String
  maximum_value : Option String
  unit : Option UnitInfo
  in_subset : List String
  annotations : List (String × AnnVal)
  examples : List ExampleVal
  is_a : Option String
  mixins : List String
deriving DecidableEq

/-- The attributes of a LinkML class definition the script reads.
`inducedSlots` is the class's induced slot set after inheritance resolution,
as produced by the external schema model (`class_induced_slots`); the names
of these slots are what `class_slots` returns. -/
structure ClassDef where
  description : Option String
  is_a : Option String
  from_schema : Option String
  inducedSlots : List SlotDef
deriving DecidableEq

/-- The attributes of a LinkML enumeration definition the script reads.  A
permissible value maps to `none` when the value object itself is `None`, and
otherwise to its optional description. -/
structure EnumDef where
  description : Option String
  from_schema : Option String
  permissible_values : List (String × Option (Option String))
deriving DecidableEq

/-- The attributes of a LinkML type definition the script reads. -/
structure TypeDef where
  uri : Option String
deriving DecidableEq

/-- Schema-level metadata the script reads. -/
structure SchemaDef where
  id : String
  name : Option String
  title : Option String
  description : Option String
deriving DecidableEq

/-- The queryable schema model (`SchemaView` of `linkml_runtime`): the
schema's metadata plus the `all_slots`/`all_classes`/`all_enums`/`all_types`
mappings, as insertion-ordered association lists. -/
structure SchemaView where
  schema : SchemaDef
  slots : List (String × SlotDef)
  classes : List (String × ClassDef)
  enums : List (String × EnumDef)
  types : List (String × TypeDef)
deriving DecidableEq

/-- `sv.class_slots(cls_name)`: the names of the class's induced slots. -/
def class_slots (sv : SchemaView) (cls_name : String) : List String :=
  match sv.classes.find? (fun p => p.1 = cls_name) with
  | some p => p.2.inducedSlots.map (fun s => s.name)
  | none => []

/-- `sv.class_induced_slots(cls_name)`: the class's induced slot set. -/
def class_induced_slots (sv : SchemaView) (cls_name : String) : List SlotDef :=
  match sv.classes.find? (fun p => p.1 = cls_name) with
  | some p => p.2.inducedSlots
  | none => []

/-- `sv.get_type(name)`. -/
def getType (sv : SchemaView) (name : String) : Option TypeDef :=
  (sv.types.find? (fun p => p.1 = name)).map (fun p => p.2)

/-- The locality test of `generate_filtered_docs`:
`getattr(elem, 'from_schema', local_schema_id) == local_schema_id`, i.e. an
element with no recorded origin defaults to local. -/
def isLocal (localId : String) (from_schema : Option String) : Bool :=
  from_schema.getD localId = localId

/-- The `local_slots` mapping computed by `generate_filtered_docs`. -/
def local_slots (sv : SchemaView) : List (String × SlotDef) :=
  sv.slots.filter (fun p => isLocal sv.schema.id p.2.from_schema)

/-- The `local_classes` mapping computed by `generate_filtered_docs`. -/
def local_classes (sv : SchemaView) : List (String × ClassDef) :=
  sv.classes.filter (fun p => isLocal sv.schema.id p.2.from_schema)

/-- The `local_enums` mapping computed by `generate_filtered_docs`. -/
def local_enums (sv : SchemaView) : List (String × EnumDef) :=
  sv.enums.filter (fun p => isLocal sv.schema.id p.2.from_schema)

/-- `case_insensitive_sort(names)`:
`sorted(names, key=lambda x: x.lower())`, a stable sort on the lower-cased
key, modelled by the stable `List.insertionSort`. -/
def case_insensitive_sort (names : List String) : List String :=
  List.insertionSort ciLe names

/-- Comparison of slot definitions by lower-cased name, the key used in
`render_class_page`'s `sorted(slots, key=lambda s: s.name.lower())`. -/
def slotNameLe (a b : SlotDef) : Prop :=
  keyLe a.name b.name = true

instance : DecidableRel slotNameLe :=
  fun a b => inferInstanceAs (Decidable (keyLe a.name b.name = true))

instance : IsTotal SlotDef slotNameLe :=
  ⟨fun a b => lexLe_total_pf (lowerChars a.name) (lowerChars b.name)⟩

instance : IsTrans SlotDef slotNameLe :=
  ⟨fun _ _ _ h1 h2 => lexLe_trans_pf _ _ _ h1 h2⟩

/-- The stable case-insensitive sort of a class's induced slots by name. -/
def sortSlotsByName (slots : List SlotDef) : List SlotDef :=
  List.insertionSort slotNameLe slots

/-- `'Yes' if flag else 'No'`. -/
def yesNo (b : Bool) : String :=
  if b then "Yes" else "No"

/-- `(text or "").replace("\n", " ")[:n]`: a description cell, newlines
collapsed to spaces, truncated to `n` characters. -/
def descCell (d : Option String) (n : Nat) : String :=
  String.mk (((pyOr d ("")).data.map (fun ch => if ch = '\n' then ' ' else ch)).take n)

/-- Newline collapsing without truncation, used for permitted values. -/
def replaceNL (s : String) : String :=
  String.mk (s.data.map (fun ch => if ch = '\n' then ' ' else ch))

/-- The `range_display` computation of `render_slot_page`: cross-link the
range if it is a known enum or class, inline-code it (with URI) if it is a
known type, and otherwise leave it as given. -/
def rangeDisplay (sv : SchemaView) (range_val : String) : String :=
  if sv.enums.any (fun p => p.1 = range_val) then
    "[" ++ range_val ++ "](../enums/" ++ range_val ++ ".md)"
  else if sv.classes.any (fun p => p.1 = range_val) then
    "[" ++ range_val ++ "](../classes/" ++ range_val ++ ".md)"
  else if sv.types.any (fun p => p.1 = range_val) then
    match getType sv range_val with
    | some t =>
      if pyTruthy t.uri then
        "`" ++ range_val ++ "` (" ++ t.uri.getD ("") ++ ")"
      else
        "`" ++ range_val ++ "`"
    | none => range_val
  else range_val

/-- The heading and optional description opening every element page. -/
def headLines (name : String) (description : Option String) : List String :=
  ["# " ++ name, ""] ++
    (if pyTruthy description then [description.getD (""), ""] else [])

/-- The `## Comments` block of a slot page. -/
def commentLines (comments : List String) : List String :=
  if comments.isEmpty then []
  else ["## Comments", ""] ++ comments.map (fun c => "- " ++ c) ++ [""]

/-- The `## Details` table of a slot page. -/
def detailLines (sv : SchemaView) (slot : SlotDef) : List String :=
  let range_val := pyOr slot.range ("string")
  let range_display := rangeDisplay sv range_val
  ["## Details", "", "| Property | Value |", "|----------|-------|"] ++
  ["| **Range** | " ++ range_display ++ " |"] ++
  ["| **Required** | " ++ yesNo slot.required ++ " |"] ++
  ["| **Multivalued** | " ++ yesNo slot.multivalued ++ " |"] ++
  (if pyTruthy slot.pattern then
    ["| **Pattern** | `" ++ slot.pattern.getD ("") ++ "` |"] else []) ++
  (match slot.minimum_value with
    | some v => ["| **Minimum** | " ++ v ++ " |"]
    | none => []) ++
  (match slot.maximum_value with
    | some v => ["| **Maximum** | " ++ v ++ " |"]
    | none => []) ++
  (match slot.unit with
    | some (UnitInfo.symObj sym ucum) => ["| **Unit** | " ++ sym ++ " (" ++ ucum ++ ") |"]
    | some (UnitInfo.rawVal v) => ["| **Unit** | " ++ v ++ " |"]
    | none => []) ++
  (if slot.in_subset.isEmpty then []
   else ["| **Subsets** | " ++ String.intercalate (", ") slot.in_subset ++ " |"]) ++
  [""]

/-- The `## Annotations` table of a slot page. -/
def annLines (anns : List (String × AnnVal)) : List String :=
  if anns.isEmpty then []
  else
    ["## Annotations", "", "| Tag | Value |", "|-----|-------|"] ++
    anns.map (fun p =>
      let v := match p.2 with
        | AnnVal.withValue v => v
        | AnnVal.plain s => s
      "| `" ++ p.1 ++ "` | " ++ v ++ " |") ++
    [""]

/-- The `## Examples` list of a slot page. -/
def exampleLines (exs : List ExampleVal) : List String :=
  if exs.isEmpty then []
  else
    ["## Examples", ""] ++
    exs.map (fun ex =>
      match ex with
      | ExampleVal.withValue v => "- `" ++ v ++ "`"
      | ExampleVal.plain s => "- `" ++ s ++ "`") ++
    [""]

/-- The reverse lookup of `render_slot_page`: every class (from
`all_classes`) whose `class_slots` contain the slot, in model order. -/
def classes_using (sv : SchemaView) (slot_name : String) : List String :=
  (sv.classes.filter (fun p => (class_slots sv p.1).contains slot_name)).map
    (fun p => p.1)

/-- The `## Used In` block of a slot page: present only when some class uses
the slot, listing the using classes case-insensitively sorted and
link-formatted. -/
def usedInLines (sv : SchemaView) (slot_name : String) : List String :=
  let cu := classes_using sv slot_name
  if cu.isEmpty then []
  else
    ["## Used In", ""] ++
    (case_insensitive_sort cu).map
      (fun c => "- [" ++ c ++ "](../classes/" ++ c ++ ".md)") ++
    [""]

/-- The `## Inheritance` block of a slot or class page. -/
def inheritanceLines (is_a : Option String) : List String :=
  if pyTruthy is_a then
    ["## Inheritance", "", "Inherits from: `" ++ is_a.getD ("") ++ "`", ""]
  else []

/-- The `## Mixins` block of a slot page. -/
def mixinLines (mixins : List String) : List String :=
  if mixins.isEmpty then []
  else ["## Mixins", ""] ++ mixins.map (fun m => "- `" ++ m ++ "`") ++ [""]

/-- The lines of a slot page, in the order `render_slot_page` emits them. -/
def render_slot_page_lines (sv : SchemaView) (slot_name : String) (slot : SlotDef) :
    List String :=
  headLines slot_name slot.description ++
  commentLines slot.comments ++
  detailLines sv slot ++
  annLines slot.annotations ++
  exampleLines slot.examples ++
  usedInLines sv slot_name ++
  inheritanceLines slot.is_a ++
  mixinLines slot.mixins

/-- `render_slot_page`. -/
def render_slot_page (sv : SchemaView) (slot_name : String) (slot : SlotDef) : String :=
  String.intercalate ("\n") (render_slot_page_lines sv slot_name slot)

/-- One row of a class page's attributes table. -/
def attrRow (slot : SlotDef) : String :=
  "| [" ++ slot.name ++ "](../slots/" ++ slot.name ++ ".md) | `" ++
    pyOr slot.range ("string") ++ "` | " ++ descCell slot.description 100 ++
    " | " ++ yesNo slot.required ++ " |"

/-- The `## Attributes` table of a class page: one row per induced slot,
rows sorted case-insensitively by slot name. -/
def attributeLines (slots : List SlotDef) : List String :=
  if slots.isEmpty then []
  else
    ["## Attributes", "", "| Name | Type | Description | Required |",
     "|------|------|-------------|----------|"] ++
    (sortSlotsByName slots).map attrRow ++ [""]

/-- The lines of a class page, in the order `render_class_page` emits them. -/
def render_class_page_lines (sv : SchemaView) (cls_name : String) (cls : ClassDef) :
    List String :=
  headLines cls_name cls.description ++
  attributeLines (class_induced_slots sv cls_name) ++
  inheritanceLines cls.is_a

/-- `render_class_page`. -/
def render_class_page (sv : SchemaView) (cls_name : String) (cls : ClassDef) : String :=
  String.intercalate ("\n") (render_class_page_lines sv cls_name cls)

/-- The description cell of a permitted-value row:
`pv.description.replace("\n", " ")` when the value object and its
description are truthy, else blank. -/
def pvDescCell (pv : Option (Option String)) : String :=
  match pv with
  | some (some d) => if d = "" then "" else replaceNL d
  | some none => ""
  | none => ""

/-- One row of an enum page's permitted-values table, looked up by name as
`enum.permissible_values[pv_name]`. -/
def pvRow (pvs : List (String × Option (Option String))) (pv_name : String) : String :=
  "| `" ++ pv_name ++ "` | " ++
    pvDescCell ((pvs.find? (fun p => p.1 = pv_name)).map (fun p => p.2) |>.getD none) ++
    " |"

/-- The lines of an enum page, in the order `render_enum_page` emits them
(the `sv` parameter is unused, as in the source). -/
def render_enum_page_lines (_sv : SchemaView) (enum_name : String) (enum : EnumDef) :
    List String :=
  headLines enum_name enum.description ++
  ["## Permitted Values", "", "| Value | Description |", "|-------|-------------|"] ++
  (if enum.permissible_values.isEmpty then []
   else
    (case_insensitive_sort (enum.permissible_values.map (fun p => p.1))).map
      (pvRow enum.permissible_values)) ++
  [""]

/-- `render_enum_page`. -/
def render_enum_page (sv : SchemaView) (enum_name : String) (enum : EnumDef) : String :=
  String.intercalate ("\n") (render_enum_page_lines sv enum_name enum)

/-- The display name used by the index and the site configuration:
`schema.title or schema.name or "Schema"`. -/
def displayName (schema : SchemaDef) : String :=
  pyOr schema.title (pyOr schema.name ("Schema"))

/-- One row of the index's data-dictionary table (description truncated to
80 characters). -/
def indexRowOf (slot_name : String) (slot : SlotDef) : String :=
  "| [" ++ slot_name ++ "](slots/" ++ slot_name ++ ".md) | `" ++
    pyOr slot.range ("string") ++ "` | " ++ descCell slot.description 80 ++ " |"

/-- Dictionary lookup of a slot by name (`local_slots[slot_name]`), total
with a dummy default; the script only looks up keys of the mapping. -/
def lookupSlot (ls : List (String × SlotDef)) (slot_name : String) : SlotDef :=
  match ls.find? (fun p => p.1 = slot_name) with
  | some p => p.2
  | none =>
    { name := slot_name, from_schema := none, description := none, comments := []
      range := none, required := false, multivalued := false, pattern := none
      minimum_value := none, maximum_value := none, unit := none, in_subset := []
      annotations := [], examples := [], is_a := none, mixins := [] }

/-- The `## Classes` section of the index page (omitted under `slots_only`
or when there are no local classes). -/
def indexClassesLines (local_classes : List (String × ClassDef)) (slots_only : Bool) :
    List String :=
  if !slots_only && !local_classes.isEmpty then
    ["## Classes", ""] ++
    (case_insensitive_sort (local_classes.map (fun p => p.1))).map
      (fun c => "- [" ++ c ++ "](classes/" ++ c ++ ".md)") ++
    [""]
  else []

/-- The `## Enumerations` section of the index page. -/
def indexEnumsLines (local_enums : List (String × EnumDef)) : List String :=
  if !local_enums.isEmpty then
    ["## Enumerations", ""] ++
    (case_insensitive_sort (local_enums.map (fun p => p.1))).map
      (fun e => "- [" ++ e ++ "](enums/" ++ e ++ ".md)") ++
    [""]
  else []

/-- The lines of the index page, in the order `render_index` emits them. -/
def render_index_lines (sv : SchemaView) (ls : List (String × SlotDef))
    (lc : List (String × ClassDef)) (le : List (String × EnumDef))
    (slots_only : Bool) : List String :=
  ["# " ++ displayName sv.schema, ""] ++
  (if pyTruthy sv.schema.description then [sv.schema.description.getD (""), ""] else []) ++
  ["## Data Dictionary", "", "| Field | Type | Description |",
   "|-------|------|-------------|"] ++
  (case_insensitive_sort (ls.map (fun p => p.1))).map
    (fun sn => indexRowOf sn (lookupSlot ls sn)) ++
  [""] ++
  indexClassesLines lc slots_only ++
  indexEnumsLines le

/-- `render_index`. -/
def render_index (sv : SchemaView) (ls : List (String × SlotDef))
    (lc : List (String × ClassDef)) (le : List (String × EnumDef))
    (slots_only : Bool) : String :=
  String.intercalate ("\n") (render_index_lines sv ls lc le slots_only)

/-- The navigation lines of the generated `mkdocs.yml`: Home, then (unless
suppressed) the Classes group, then the Enumerations group, then the
always-present Data Dictionary group. -/
def mkdocsNavLines (ls : List (String × SlotDef)) (lc : List (String × ClassDef))
    (le : List (String × EnumDef)) (slots_only : Bool) : List String :=
  ["  - Home: index.md"] ++
  (if !slots_only && !lc.isEmpty then
    ("  - Classes:") ::
      (case_insensitive_sort (lc.map (fun p => p.1))).map
        (fun c => "      - " ++ c ++ ": classes/" ++ c ++ ".md")
   else []) ++
  (if !le.isEmpty then
    ("  - Enumerations:") ::
      (case_insensitive_sort (le.map (fun p => p.1))).map
        (fun e => "      - " ++ e ++ ": enums/" ++ e ++ ".md")
   else []) ++
  (("  - Data Dictionary:") ::
    (case_insensitive_sort (ls.map (fun p => p.1))).map
      (fun s => "      - " ++ s ++ ": slots/" ++ s ++ ".md"))

/-- `generate_mkdocs_config`: the fixed site options followed by the
generated navigation. -/
def generate_mkdocs_config (schema : SchemaDef) (ls : List (String × SlotDef))
    (lc : List (String × ClassDef)) (le : List (String × EnumDef))
    (slots_only : Bool) : String :=
  let nav_yaml := String.intercalate ("\n") (mkdocsNavLines ls lc le slots_only)
  let schema_name := displayName schema
  "site_name: " ++ schema_name ++ "\n" ++
  "site_description: Documentation for " ++ schema_name ++ "\n" ++
  "docs_dir: docs\n\ntheme:\n  name: readthedocs\n  collapse_navigation: false\n" ++
  "  sticky_navigation: true\n  titles_only: false\n\nplugins:\n  - search\n\n" ++
  "extra_css:\n  - css/custom.css\n\nmarkdown_extensions:\n  - tables\n" ++
  "  - admonition\n  - toc:\n      permalink: true\n\nnav:\n" ++
  nav_yaml ++ "\n"

/-- `generate_filtered_docs`, modelled as the list of (path, content) files
it writes: one page per local slot, the class pages unless suppressed, the
enum pages, the index, and the mkdocs configuration written next to the
output directory. -/
def generate_filtered_docs (sv : SchemaView) (output_dir : String)
    (slots_only : Bool) : List (String × String) :=
  let ls := local_slots sv
  let lc := local_classes sv
  let le := local_enums sv
  ls.map (fun p =>
      (output_dir ++ "/slots/" ++ p.1 ++ ".md", render_slot_page sv p.1 p.2)) ++
  (if !slots_only && !lc.isEmpty then
    lc.map (fun p =>
      (output_dir ++ "/classes/" ++ p.1 ++ ".md", render_class_page sv p.1 p.2))
   else []) ++
  (if !le.isEmpty then
    le.map (fun p =>
      (output_dir ++ "/enums/" ++ p.1 ++ ".md", render_enum_page sv p.1 p.2))
   else []) ++
  [(output_dir ++ "/index.md", render_index sv ls lc le slots_only)] ++
  [("mkdocs.yml", generate_mkdocs_config sv.schema ls lc le slots_only)]

/-- A slot definition with every optional attribute absent. -/
def baseSlot (name : String) : SlotDef :=
  { name := name, from_schema := none, description := none, comments := []
    range := none, required := false, multivalued := false, pattern := none
    minimum_value := none, maximum_value := none, unit := none, in_subset := []
    annotations := [], examples := [], is_a := none, mixins := [] }

/-- A schema-level record with only an identifier. -/
def baseSchema (id : String) : SchemaDef :=
  { id := id, name := none, title := none, description := none }

/-- Locality example: slot `A` imported from another schema. -/
def c3A : SlotDef :=
  { baseSlot ("A") with from_schema := some ("https://example.org/other") }

/-- Locality example: slot `B` originating from the root schema. -/
def c3B : SlotDef :=
  { baseSlot ("B") with from_schema := some ("https://example.org/root") }

/-- Locality example: a model with one imported and one local slot. -/
def c3sv : SchemaView :=
  { schema := baseSchema ("https://example.org/root"),
    slots := [(("A"), c3A), (("B"), c3B)], classes := [], enums := [], types := [] }

/-- Class-page example: optional slot `name`. -/
def c5name : SlotDef :=
  { baseSlot ("name") with description := some ("The name"), range := some ("string") }

/-- Class-page example: required slot `age`. -/
def c5age : SlotDef :=
  { baseSlot ("age") with
    description := some ("Age in years")
    range := some ("integer")
    required := true }

/-- Class-page example: a class whose induced slots are `name` then `age`. -/
def c5person : ClassDef :=
  { description := some ("A person"), is_a := none, from_schema := none,
    inducedSlots := [c5name, c5age] }

/-- Class-page example model. -/
def c5sv : SchemaView :=
  { schema := baseSchema ("https://example.org/c5"),
    slots := [(("name"), c5name), (("age"), c5age)],
    classes := [(("Person"), c5person)], enums := [], types := [] }

/-- Used-In example: the slot `f`. -/
def c6f : SlotDef := baseSlot ("f")

/-- Used-In example: the only class referencing `f`. -/
def c6person : ClassDef :=
  { description := none, is_a := none, from_schema := none, inducedSlots := [c6f] }

/-- Used-In example model: `f` is referenced by exactly the class `Person`. -/
def c6sv : SchemaView :=
  { schema := baseSchema ("https://example.org/c6"),
    slots := [(("f"), c6f)], classes := [(("Person"), c6person)],
    enums := [], types := [] }

/-- Slots-only example: a model containing a slot, a class and an enum. -/
def c7sv : SchemaView :=
  { schema := { id := "https://example.org/c7", name := some ("MySchema"),
                title := none, description := none },
    slots := [(("field1"), baseSlot ("field1"))],
    classes := [(("C"),
      { description := none, is_a := none, from_schema := none,
        inducedSlots := [baseSlot ("field1")] })],
    enums := [(("E"),
      { description := none, from_schema := none,
        permissible_values := [(("v"), some (some ("a value")))] })],
    types := [] }

/-- Sorting example: an enumeration with permitted values `b` (described)
and `a` (empty description), in that insertion order. -/
def c8enum : EnumDef :=
  { description := none, from_schema := none,
    permissible_values := [(("b"), some (some ("desc B"))), (("a"), some (some ("")))] }

/-- Sorting example model. -/
def c8sv : SchemaView :=
  { schema := baseSchema ("https://example.org/c8"),
    slots := [], classes := [], enums := [(("SortEnum"), c8enum)], types := [] }

/-- Range-default example: a slot with no declared range. -/
def c9slot : SlotDef :=
  { baseSlot ("depth") with description := some ("Measured depth") }

/-- Range-default example model. -/
def c9sv : SchemaView :=
  { schema := baseSchema ("https://example.org/c9"),
    slots := [(("depth"), c9slot)], classes := [], enums := [], types := [] }

end GenerateDocs


/-! ## Theorems -/

namespace PyStr

theorem splitCh_ne_nil (sep : Char) (cs : List Char) : splitCh sep cs ≠ [] := by
  cases cs with
  | nil => simp [splitCh]
  | cons c cs =>
    simp only [splitCh]
    split <;> simp

theorem mem_splitCh_not_sep (sep : Char) (cs : List Char) :
    ∀ p ∈ splitCh sep cs, sep ∉ p := by
  induction cs with
  | nil =>
    intro p hp
    simp [splitCh] at hp
    simp [hp]
  | cons c cs ih =>
    intro p hp
    by_cases h : c = sep
    · simp only [splitCh, if_pos h] at hp
      rcases List.mem_cons.mp hp with rfl | hp'
      · simp
      · exact ih p hp'
    · simp only [splitCh, if_neg h] at hp
      cases hs : splitCh sep cs with
      | nil => exact absurd hs (splitCh_ne_nil sep cs)
      | cons q qs =>
        rw [hs] at hp
        simp only [List.headD_cons, List.tail_cons] at hp
        rcases List.mem_cons.mp hp with rfl | hp'
        · intro hmem
          rcases List.mem_cons.mp hmem with rfl | hmem'
          · exact h rfl
          · exact ih q (hs ▸ List.mem_cons_self q qs) hmem'
        · exact ih p (hs ▸ List.mem_cons_of_mem q hp')

theorem splitCh_append (sep : Char) (p rest : List Char) (hp : sep ∉ p) :
    splitCh sep (p ++ sep :: rest) = p :: splitCh sep rest := by
  induction p with
  | nil => simp [splitCh]
  | cons c cs ih =>
    have hc : ¬ (c = sep) := fun hcon => hp (by simp [hcon])
    have hcs : sep ∉ cs := fun hm => hp (List.mem_cons_of_mem c hm)
    simp only [List.cons_append, splitCh, if_neg hc, List.append_eq]
    rw [ih hcs]
    simp

theorem joinNL_append (xs ys : List (List Char)) :
    joinNL (xs ++ ys) = joinNL xs ++ joinNL ys := by
  induction xs with
  | nil => simp [joinNL]
  | cons p ps ih => simp [joinNL, ih]

theorem splitCh_joinNL (ps : List (List Char)) (h : ∀ p ∈ ps, '\n' ∉ p) :
    splitCh '\n' (joinNL ps) = ps ++ [[]] := by
  induction ps with
  | nil => simp [joinNL, splitCh]
  | cons p ps ih =>
    have hp : '\n' ∉ p := h p (List.mem_cons_self p ps)
    have hps : ∀ q ∈ ps, '\n' ∉ q := fun q hq => h q (List.mem_cons_of_mem p hq)
    simp only [joinNL, splitCh_append '\n' p (joinNL ps) hp, ih hps, List.cons_append]

theorem splitlinesChars_eq_of_ne_nil (cs : List Char) (h : cs ≠ []) :
    splitlinesChars cs =
      if (splitCh '\n' cs).getLast? = some [] then (splitCh '\n' cs).dropLast
      else splitCh '\n' cs := by
  cases cs with
  | nil => exact absurd rfl h
  | cons c cs => rfl

theorem joinNL_ne_nil (ps : List (List Char)) (h : ps ≠ []) : joinNL ps ≠ [] := by
  cases ps with
  | nil => exact absurd rfl h
  | cons p ps => cases p <;> simp [joinNL]

theorem splitlinesChars_joinNL (ps : List (List Char)) (h0 : ps ≠ [])
    (h : ∀ p ∈ ps, '\n' ∉ p) : splitlinesChars (joinNL ps) = ps := by
  rw [splitlinesChars_eq_of_ne_nil _ (joinNL_ne_nil ps h0), splitCh_joinNL ps h]
  simp

theorem mem_splitlinesChars_no_nl (cs : List Char) :
    ∀ p ∈ splitlinesChars cs, '\n' ∉ p := by
  intro p hp
  cases cs with
  | nil => simp [splitlinesChars] at hp
  | cons c cs =>
    rw [splitlinesChars_eq_of_ne_nil _ (by simp)] at hp
    split at hp
    · exact mem_splitCh_not_sep '\n' (c :: cs) p ((List.dropLast_sublist _).subset hp)
    · exact mem_splitCh_not_sep '\n' (c :: cs) p hp

end PyStr

namespace BuildSchema

open PyStr

theorem getFile_setFile_self (fs : List (String × String)) (p c : String) :
    getFile (setFile fs p c) p = some c := by
  induction fs with
  | nil => simp [getFile, setFile]
  | cons f fs ih =>
    by_cases h : f.1 = p
    · simp [setFile, getFile, h]
    · simp [setFile, getFile, h, ih]

theorem getFile_setFile_ne (fs : List (String × String)) (p c q : String)
    (h : q ≠ p) : getFile (setFile fs p c) q = getFile fs q := by
  have hpq : ¬ (p = q) := fun hh => h hh.symm
  induction fs with
  | nil => simp [getFile, setFile, hpq]
  | cons f fs ih =>
    by_cases hf : f.1 = p
    · simp [setFile, getFile, hf, hpq]
    · simp only [setFile, if_neg hf]
      by_cases hq : f.1 = q
      · simp [getFile, hq]
      · simp [getFile, hq, ih]

theorem readFile_writeFile_self (w : World) (p c : String) :
    readFile (writeFile w p c) p = some c :=
  getFile_setFile_self w.files p c

theorem readFile_writeFile_ne (w : World) (p c q : String) (h : q ≠ p) :
    readFile (writeFile w p c) q = readFile w q :=
  getFile_setFile_ne w.files p c q h

theorem readFile_appendOut_self (w : World) (p s cur : String)
    (h : readFile w p = some cur) :
    readFile (appendOut w p s) p = some (cur ++ s) := by
  simp [appendOut, readFile_writeFile_self, h]

theorem readFile_appendOut_ne (w : World) (p s q : String) (h : q ≠ p) :
    readFile (appendOut w p s) q = readFile w q :=
  readFile_writeFile_ne w p _ q h

theorem readFile_foldl_appendOut (out : String) (files : List (String × String)) :
    ∀ (w : World) (cur : String), readFile w out = some cur →
    readFile (files.foldl (fun acc f => appendOut acc out (slotBlock f.2)) w) out
      = some (cur ++ concatStrings (files.map (fun f => slotBlock f.2))) := by
  induction files with
  | nil =>
    intro w cur h
    simpa [concatStrings] using h
  | cons f fs ih =>
    intro w cur h
    simp only [List.foldl_cons, List.map_cons, concatStrings]
    rw [ih _ _ (readFile_appendOut_self w out _ cur h), String.append_assoc]

theorem slotLineOut_data (line : String) :
    (slotLineOut line).data = indentChars line.data ++ ['\n'] := by
  simp only [slotLineOut, indentChars, isBlank]
  by_cases h : line.data.all isSpaceChar
  · simp [h]
  · simp [h]

theorem foldl_slotLineOut_data (ls : List String) :
    ∀ init : String,
      (ls.foldl (fun acc line => acc ++ slotLineOut line) init).data
        = init.data ++ joinNL (ls.map (fun line => indentChars line.data)) := by
  induction ls with
  | nil => intro init; simp [joinNL]
  | cons l ls ih =>
    intro init
    simp only [List.foldl_cons, List.map_cons, joinNL]
    rw [ih, String.data_append, slotLineOut_data]
    simp [List.append_assoc]

theorem slotBlock_data (c : String) :
    (slotBlock c).data =
      joinNL ((splitlinesChars c.data).map indentChars ++ [[]]) := by
  unfold slotBlock
  rw [String.data_append, foldl_slotLineOut_data, joinNL_append]
  simp [pySplitlines, List.map_map, joinNL, Function.comp]
  rfl

/-- C2: the lines the Schema Assembler writes for one field-fragment file are
exactly the fragment's lines, each non-blank line prefixed by exactly one
two-space indent unit, each blank line emitted as a blank line with no
prefix, followed by one inserted blank line after the fragment's content. -/
theorem c2_fragment_lines_indented (c : String) :
    pySplitlines (slotBlock c) =
      (pySplitlines c).map (fun line => if isBlank line then "" else "  " ++ line)
        ++ [""] := by
  have hnl : ∀ p ∈ (splitlinesChars c.data).map indentChars ++ [[]], '\n' ∉ p := by
    intro p hp
    rcases List.mem_append.mp hp with hp | hp
    · rcases List.mem_map.mp hp with ⟨l, hl, rfl⟩
      have hln := mem_splitlinesChars_no_nl c.data l hl
      simp only [indentChars]
      split
      · simp
      · intro hmem
        simp only [List.mem_cons] at hmem
        rcases hmem with h | h | h
        · exact absurd h (by decide)
        · exact absurd h (by decide)
        · exact hln h
    · simp only [List.mem_singleton] at hp
      subst hp
      simp
  have h0 : (splitlinesChars c.data).map indentChars ++ [[]] ≠ [] := by simp
  unfold pySplitlines
  rw [slotBlock_data, splitlinesChars_joinNL _ h0 hnl]
  rw [List.map_append, List.map_map, List.map_map]
  congr 1
  · apply List.map_congr_left
    intro l _
    have hd : isBlank (String.mk l) = l.all isSpaceChar := rfl
    by_cases h : l.all isSpaceChar
    · simp [Function.comp, indentChars, hd, h]
    · simp [Function.comp, indentChars, hd, h]
      apply String.ext
      rfl

end BuildSchema

namespace BuildSchema

open PyStr

/-- C1: in a run of the Schema Assembler in which all three fragment files
exist, the run succeeds and the output file contains, in this exact order,
the raw metadata fragment, the raw enumerations fragment, the raw classes
fragment, the fixed field-definitions comment banner, the literal `slots:`
collection opener, and the blocks of every `.yaml` field fragment of the
slots directory; the fragments are processed in lexicographic filename order
(the processed list is sorted and is a permutation of the directory's
`.yaml` entries), and the metadata, enumerations and classes contents appear
as exact substrings in source order. -/
theorem c1_assembler_output (w : World) (out m e c : String)
    (hm : readFile w metadataPath = some m)
    (he : readFile w enumsPath = some e)
    (hc : readFile w classesPath = some c)
    (h1 : out ≠ metadataPath) (h2 : out ≠ enumsPath) (h3 : out ≠ classesPath) :
    (runAssembler w out).2 = true ∧
    readFile (runAssembler w out).1 out =
      some (assembledOutput m e c (sortedSlotFiles w)) ∧
    List.Sorted pathLe (sortedSlotFiles w) ∧
    List.Perm (sortedSlotFiles w)
      (w.slotsDir.filter (fun f => matchesYamlGlob f.1)) := by
  have r0 : readFile (writeFile w out ("")) metadataPath = some m := by
    rw [readFile_writeFile_ne w out ("") metadataPath (Ne.symm h1)]
    exact hm
  have r1 : readFile (appendOut (writeFile w out ("")) out (m ++ "\n"))
      enumsPath = some e := by
    rw [readFile_appendOut_ne _ out _ enumsPath (Ne.symm h2),
        readFile_writeFile_ne w out ("") enumsPath (Ne.symm h2)]
    exact he
  have r2 : readFile (appendOut (appendOut (writeFile w out ("")) out (m ++ "\n"))
      out (e ++ "\n")) classesPath = some c := by
    rw [readFile_appendOut_ne _ out _ classesPath (Ne.symm h3),
        readFile_appendOut_ne _ out _ classesPath (Ne.symm h3),
        readFile_writeFile_ne w out ("") classesPath (Ne.symm h3)]
    exact hc
  have q0 : readFile (writeFile w out ("")) out = some ("") :=
    readFile_writeFile_self w out ("")
  have q1 := readFile_appendOut_self _ out (m ++ "\n") _ q0
  have q2 := readFile_appendOut_self _ out (e ++ "\n") _ q1
  have q3 := readFile_appendOut_self _ out (c ++ "\n") _ q2
  have q4 := readFile_appendOut_self _ out sectionBanner _ q3
  have q5 := readFile_appendOut_self _ out ("\n") _ q4
  have q6 := readFile_appendOut_self _ out ("slots:\n") _ q5
  refine ⟨?_, ?_, List.sorted_insertionSort pathLe _, List.perm_insertionSort pathLe _⟩
  · simp only [runAssembler, r0, r1, r2]
  · simp only [runAssembler, r0, r1, r2]
    rw [readFile_foldl_appendOut out _ _ _ q6]
    congr 1
    apply String.ext
    simp [assembledOutput, concatStrings, sortedSlotFiles, appendOut, writeFile,
      readFile, String.data_append, List.append_assoc]

/-- Witness for C1 on a concrete file system with two slot files listed out
of order. -/
theorem c1_assembler_output_witness :
    (runAssembler c1world ("entire_schema.yml")).2 = true ∧
    readFile (runAssembler c1world ("entire_schema.yml")).1 ("entire_schema.yml") =
      some (assembledOutput ("id: https://example.org/pot\nname: pot_survey\n")
        ("enums:\n  StageEnum:\n") ("classes:\n  Observation:\n")
        (sortedSlotFiles c1world)) ∧
    List.Sorted pathLe (sortedSlotFiles c1world) ∧
    List.Perm (sortedSlotFiles c1world)
      (c1world.slotsDir.filter (fun f => matchesYamlGlob f.1)) :=
  c1_assembler_output c1world ("entire_schema.yml") _ _ _ rfl rfl rfl
    (by decide) (by decide) (by decide)

end BuildSchema

namespace BuildSchema

open PyStr

/-- C10: the Schema Assembler opens (truncating) the output file before any
fragment is read, so a run failing on a missing fragment still leaves the
output file present, containing exactly the fragments successfully read
before the failure: empty when the metadata fragment is missing, the
metadata content when the enumerations fragment is missing, and the metadata
plus enumerations contents when the classes fragment is missing. -/
theorem c10_output_truncated_on_failure (w : World) (out : String)
    (h1 : out ≠ metadataPath) (h2 : out ≠ enumsPath) (h3 : out ≠ classesPath) :
    (readFile w metadataPath = none →
      (runAssembler w out).2 = false ∧
      readFile (runAssembler w out).1 out = some ("")) ∧
    (∀ m, readFile w metadataPath = some m → readFile w enumsPath = none →
      (runAssembler w out).2 = false ∧
      readFile (runAssembler w out).1 out = some (m ++ "\n")) ∧
    (∀ m e, readFile w metadataPath = some m → readFile w enumsPath = some e →
      readFile w classesPath = none →
      (runAssembler w out).2 = false ∧
      readFile (runAssembler w out).1 out = some (m ++ "\n" ++ (e ++ "\n"))) := by
  have q0 : readFile (writeFile w out ("")) out = some ("") :=
    readFile_writeFile_self w out ("")
  refine ⟨?_, ?_, ?_⟩
  · intro hm
    have r0 : readFile (writeFile w out ("")) metadataPath = none := by
      rw [readFile_writeFile_ne w out ("") metadataPath (Ne.symm h1)]
      exact hm
    refine ⟨?_, ?_⟩
    · simp only [runAssembler, r0]
    · simp only [runAssembler, r0]
      exact q0
  · intro m hm he
    have r0 : readFile (writeFile w out ("")) metadataPath = some m := by
      rw [readFile_writeFile_ne w out ("") metadataPath (Ne.symm h1)]
      exact hm
    have r1 : readFile (appendOut (writeFile w out ("")) out (m ++ "\n"))
        enumsPath = none := by
      rw [readFile_appendOut_ne _ out _ enumsPath (Ne.symm h2),
          readFile_writeFile_ne w out ("") enumsPath (Ne.symm h2)]
      exact he
    have q1 := readFile_appendOut_self _ out (m ++ "\n") _ q0
    refine ⟨?_, ?_⟩
    · simp only [runAssembler, r0, r1]
    · simp only [runAssembler, r0, r1]
      rw [q1, String.empty_append]
  · intro m e hm he hc
    have r0 : readFile (writeFile w out ("")) metadataPath = some m := by
      rw [readFile_writeFile_ne w out ("") metadataPath (Ne.symm h1)]
      exact hm
    have r1 : readFile (appendOut (writeFile w out ("")) out (m ++ "\n"))
        enumsPath = some e := by
      rw [readFile_appendOut_ne _ out _ enumsPath (Ne.symm h2),
          readFile_writeFile_ne w out ("") enumsPath (Ne.symm h2)]
      exact he
    have r2 : readFile (appendOut (appendOut (writeFile w out ("")) out (m ++ "\n"))
        out (e ++ "\n")) classesPath = none := by
      rw [readFile_appendOut_ne _ out _ classesPath (Ne.symm h3),
          readFile_appendOut_ne _ out _ classesPath (Ne.symm h3),
          readFile_writeFile_ne w out ("") classesPath (Ne.symm h3)]
      exact hc
    have q1 := readFile_appendOut_self _ out (m ++ "\n") _ q0
    have q2 := readFile_appendOut_self _ out (e ++ "\n") _ q1
    refine ⟨?_, ?_⟩
    · simp only [runAssembler, r0, r1, r2]
    · simp only [runAssembler, r0, r1, r2]
      rw [q2, String.empty_append]

/-- Witness for C10 on a concrete file system missing the enums fragment. -/
theorem c10_output_truncated_witness :
    (runAssembler c10world ("entire_schema.yml")).2 = false ∧
    readFile (runAssembler c10world ("entire_schema.yml")).1 ("entire_schema.yml") =
      some ("id: https://example.org/pot\n" ++ "\n") :=
  (c10_output_truncated_on_failure c10world ("entire_schema.yml")
    (by decide) (by decide) (by decide)).2.1
    ("id: https://example.org/pot\n") rfl rfl

end BuildSchema

namespace BuildSchema

open PyStr

/-- C4: when a fragment file (metadata, enumerations or classes) is missing,
the Schema Assembler run fails (the propagated error terminates it before
completion), and the output never equals an assembly in which the missing
fragment's content was substituted with empty content. -/
theorem c4_missing_fragment_fatal (w : World) (out : String)
    (h1 : out ≠ metadataPath) (h2 : out ≠ enumsPath) (h3 : out ≠ classesPath) :
    (readFile w metadataPath = none →
      (runAssembler w out).2 = false ∧
      ∀ e c, readFile (runAssembler w out).1 out ≠
        some (assembledOutput ("") e c (sortedSlotFiles w))) ∧
    (∀ m, readFile w metadataPath = some m → readFile w enumsPath = none →
      (runAssembler w out).2 = false ∧
      ∀ c, readFile (runAssembler w out).1 out ≠
        some (assembledOutput m ("") c (sortedSlotFiles w))) ∧
    (∀ m e, readFile w metadataPath = some m → readFile w enumsPath = some e →
      readFile w classesPath = none →
      (runAssembler w out).2 = false ∧
      readFile (runAssembler w out).1 out ≠
        some (assembledOutput m e ("") (sortedSlotFiles w))) := by
  have hrun := c10_output_truncated_on_failure w out h1 h2 h3
  have hn : ("\n" : String).length = 1 := rfl
  have hsl : ("slots:\n" : String).length = 7 := rfl
  refine ⟨?_, ?_, ?_⟩
  · intro hm
    refine ⟨(hrun.1 hm).1, ?_⟩
    intro e c hcon
    rw [(hrun.1 hm).2] at hcon
    have h' := Option.some.inj hcon
    have hlen := congrArg String.length h'
    simp [assembledOutput, concatStrings, hn, hsl] at hlen
    omega
  · intro m hm he
    refine ⟨(hrun.2.1 m hm he).1, ?_⟩
    intro c hcon
    rw [(hrun.2.1 m hm he).2] at hcon
    have h' := Option.some.inj hcon
    have hlen := congrArg String.length h'
    simp [assembledOutput, concatStrings, hn, hsl] at hlen
  · intro m e hm he hc
    refine ⟨(hrun.2.2 m e hm he hc).1, ?_⟩
    intro hcon
    rw [(hrun.2.2 m e hm he hc).2] at hcon
    have h' := Option.some.inj hcon
    have hlen := congrArg String.length h'
    simp [assembledOutput, concatStrings, hn, hsl] at hlen
    omega

/-- Witness for C4 on a concrete file system missing the classes fragment. -/
theorem c4_missing_fragment_witness :
    (runAssembler c4world ("entire_schema.yml")).2 = false ∧
    readFile (runAssembler c4world ("entire_schema.yml")).1 ("entire_schema.yml") ≠
      some (assembledOutput ("id: https://example.org/pot\n") ("enums:\n") ("")
        (sortedSlotFiles c4world)) :=
  (c4_missing_fragment_fatal c4world ("entire_schema.yml")
    (by decide) (by decide) (by decide)).2.2
    ("id: https://example.org/pot\n") ("enums:\n") rfl rfl rfl

end BuildSchema

namespace GenerateDocs

open PyStr

/-- C3: the filtered local sets of the Documentation Generator contain
exactly the elements whose originating-schema identifier equals the root
schema's identifier, an element with no recorded origin counting as local;
in particular, on the model with imported slot `A` and local slot `B`, the
filtered local-slot set contains only `B`. -/
theorem c3_local_filter (sv : SchemaView) :
    (∀ n s, (n, s) ∈ local_slots sv ↔
      (n, s) ∈ sv.slots ∧
        (s.from_schema = none ∨ s.from_schema = some sv.schema.id)) ∧
    (∀ n c, (n, c) ∈ local_classes sv ↔
      (n, c) ∈ sv.classes ∧
        (c.from_schema = none ∨ c.from_schema = some sv.schema.id)) ∧
    (∀ n e, (n, e) ∈ local_enums sv ↔
      (n, e) ∈ sv.enums ∧
        (e.from_schema = none ∨ e.from_schema = some sv.schema.id)) ∧
    local_slots c3sv = [(("B"), c3B)] := by
  have key : ∀ (o : Option String) (i : String),
      (isLocal i o = true) ↔ (o = none ∨ o = some i) := by
    intro o i
    cases o <;> simp [isLocal]
  refine ⟨?_, ?_, ?_, by decide⟩
  · intro n s
    simp [local_slots, List.mem_filter, key]
  · intro n c
    simp [local_classes, List.mem_filter, key]
  · intro n e
    simp [local_enums, List.mem_filter, key]

/-- Witness for C3: the general filter law at the example model, and the
example's filtered local-slot set. -/
theorem c3_local_filter_witness :
    ((("B"), c3B) ∈ local_slots c3sv ↔
      ((("B"), c3B) ∈ c3sv.slots ∧
        (c3B.from_schema = none ∨ c3B.from_schema = some c3sv.schema.id))) ∧
    local_slots c3sv = [(("B"), c3B)] :=
  ⟨(c3_local_filter c3sv).1 ("B") c3B, (c3_local_filter c3sv).2.2.2⟩

end GenerateDocs

namespace GenerateDocs

open PyStr

/-- C5: for a class with a non-empty induced field set, the rendered class
page is its heading block followed by an attributes table with exactly one
row per induced field — the rows being the stable case-insensitive sort of
the induced set by field name (a permutation of it, sorted by lower-cased
name) — and the inheritance block; each row holds the field's cross-link,
its range in inline code, its description with newlines replaced by spaces
truncated to 100 characters, and the required flag as Yes/No. -/
theorem c5_class_page_attributes (sv : SchemaView) (cls_name : String)
    (cls : ClassDef) (h : class_induced_slots sv cls_name ≠ []) :
    render_class_page_lines sv cls_name cls =
      headLines cls_name cls.description ++
      (["## Attributes", "", "| Name | Type | Description | Required |",
        "|------|------|-------------|----------|"] ++
       (sortSlotsByName (class_induced_slots sv cls_name)).map attrRow ++ [""]) ++
      inheritanceLines cls.is_a ∧
    List.Perm (sortSlotsByName (class_induced_slots sv cls_name))
      (class_induced_slots sv cls_name) ∧
    List.Sorted slotNameLe (sortSlotsByName (class_induced_slots sv cls_name)) ∧
    ∀ s, attrRow s =
      "| [" ++ s.name ++ "](../slots/" ++ s.name ++ ".md) | `" ++
        pyOr s.range ("string") ++ "` | " ++ descCell s.description 100 ++
        " | " ++ yesNo s.required ++ " |" := by
  have h' : (class_induced_slots sv cls_name).isEmpty = false := by
    simpa [List.isEmpty_iff] using h
  refine ⟨?_, List.perm_insertionSort slotNameLe _,
    List.sorted_insertionSort slotNameLe _, fun s => rfl⟩
  simp [render_class_page_lines, attributeLines, h']

/-- Witness for C5 on the {name, age} example: `age` is required, `name` is
not, and the table rows come out age before name with Yes then No. -/
theorem c5_class_page_attributes_witness :
    class_induced_slots c5sv ("Person") ≠ [] ∧
    (render_class_page_lines c5sv ("Person") c5person =
      headLines ("Person") c5person.description ++
      (["## Attributes", "", "| Name | Type | Description | Required |",
        "|------|------|-------------|----------|"] ++
       (sortSlotsByName (class_induced_slots c5sv ("Person"))).map attrRow ++ [""]) ++
      inheritanceLines c5person.is_a ∧
    List.Perm (sortSlotsByName (class_induced_slots c5sv ("Person")))
      (class_induced_slots c5sv ("Person")) ∧
    List.Sorted slotNameLe (sortSlotsByName (class_induced_slots c5sv ("Person"))) ∧
    ∀ s, attrRow s =
      "| [" ++ s.name ++ "](../slots/" ++ s.name ++ ".md) | `" ++
        pyOr s.range ("string") ++ "` | " ++ descCell s.description 100 ++
        " | " ++ yesNo s.required ++ " |") ∧
    (sortSlotsByName (class_induced_slots c5sv ("Person"))).map attrRow =
      ["| [age](../slots/age.md) | `integer` | Age in years | Yes |",
       "| [name](../slots/name.md) | `string` | The name | No |"] :=
  ⟨by decide, c5_class_page_attributes c5sv ("Person") c5person (by decide), by decide⟩

end GenerateDocs

namespace GenerateDocs

open PyStr

/-- C6: a field page's Used In section exists exactly when some class's
induced field set contains the field; it lists exactly those classes
(membership in `classes_using` is equivalent to being a class of the model
whose slot-name set contains the field), case-insensitively sorted and
link-formatted, and the section occupies its fixed position inside the
rendered page. -/
theorem c6_used_in_section (sv : SchemaView) (slot_name : String) :
    (∀ c, c ∈ classes_using sv slot_name ↔
      ((∃ cd, (c, cd) ∈ sv.classes) ∧ slot_name ∈ class_slots sv c)) ∧
    (classes_using sv slot_name = [] → usedInLines sv slot_name = []) ∧
    (classes_using sv slot_name ≠ [] →
      usedInLines sv slot_name =
        ["## Used In", ""] ++
        (case_insensitive_sort (classes_using sv slot_name)).map
          (fun c => "- [" ++ c ++ "](../classes/" ++ c ++ ".md)") ++ [""]) ∧
    List.Sorted ciLe (case_insensitive_sort (classes_using sv slot_name)) ∧
    List.Perm (case_insensitive_sort (classes_using sv slot_name))
      (classes_using sv slot_name) ∧
    (∀ slot, render_slot_page_lines sv slot_name slot =
      (headLines slot_name slot.description ++ commentLines slot.comments ++
        detailLines sv slot ++ annLines slot.annotations ++
        exampleLines slot.examples) ++
      usedInLines sv slot_name ++
      (inheritanceLines slot.is_a ++ mixinLines slot.mixins)) := by
  refine ⟨?_, ?_, ?_, List.sorted_insertionSort ciLe _,
    List.perm_insertionSort ciLe _, ?_⟩
  · intro c
    constructor
    · intro hmem
      rcases List.mem_map.mp hmem with ⟨p, hp, rfl⟩
      rcases List.mem_filter.mp hp with ⟨hmem', hpred⟩
      refine ⟨⟨p.2, hmem'⟩, ?_⟩
      simpa [List.contains] using hpred
    · rintro ⟨⟨cd, hcd⟩, hslot⟩
      apply List.mem_map.mpr
      refine ⟨(c, cd), List.mem_filter.mpr ⟨hcd, ?_⟩, rfl⟩
      simpa [List.contains] using hslot
  · intro h
    simp [usedInLines, h]
  · intro h
    have h' : (classes_using sv slot_name).isEmpty = false := by
      simpa [List.isEmpty_iff] using h
    simp [usedInLines, h']
  · intro slot
    simp [render_slot_page_lines, List.append_assoc]

/-- Witness for C6: the field `f` is referenced by exactly the class
`Person`, and its Used In section lists exactly `Person`. -/
theorem c6_used_in_section_witness :
    classes_using c6sv ("f") ≠ [] ∧
    usedInLines c6sv ("f") =
      ["## Used In", "", "- [Person](../classes/Person.md)", ""] :=
  ⟨by decide, by
    rw [(c6_used_in_section c6sv ("f")).2.2.1 (by decide)]
    decide⟩

end GenerateDocs

namespace PyStr

theorem isPrefixOf_append_cancel (a b c : List Char) :
    (a ++ b).isPrefixOf (a ++ c) = b.isPrefixOf c := by
  induction a with
  | nil => rfl
  | cons x xs ih => simp [List.isPrefixOf, ih]

theorem mem_of_isPrefixOf {a : Char} :
    ∀ {l1 l2 : List Char}, l1.isPrefixOf l2 = true → a ∈ l1 → a ∈ l2 := by
  intro l1
  induction l1 with
  | nil =>
    intro l2 h hm
    simp at hm
  | cons x xs ih =>
    intro l2 h hm
    cases l2 with
    | nil => simp [List.isPrefixOf] at h
    | cons y ys =>
      simp only [List.isPrefixOf, Bool.and_eq_true, beq_iff_eq] at h
      rcases List.mem_cons.mp hm with rfl | hm'
      · exact h.1 ▸ List.mem_cons_self _ _
      · exact List.mem_cons_of_mem _ (ih h.2 hm')

end PyStr

namespace GenerateDocs

open PyStr

theorem sixSpace_data_ne (z : List Char) :
    ([' ', ' ', ' ', ' ', ' ', ' ', '-', ' '] ++ z) ≠ ("  - Classes:").data := by
  intro h
  have h12 : ("  - Classes:").data =
      [' ', ' ', '-', ' ', 'C', 'l', 'a', 's', 's', 'e', 's', ':'] := rfl
  rw [h12] at h
  simp at h

theorem notClasses_slots (od x : String) :
    strStartsWith (od ++ "/slots/" ++ x ++ ".md") (od ++ "/classes/") = false := by
  unfold strStartsWith
  simp only [String.data_append, List.append_assoc, isPrefixOf_append_cancel]
  rfl

theorem notClasses_enums (od x : String) :
    strStartsWith (od ++ "/enums/" ++ x ++ ".md") (od ++ "/classes/") = false := by
  unfold strStartsWith
  simp only [String.data_append, List.append_assoc, isPrefixOf_append_cancel]
  rfl

theorem notClasses_index (od : String) :
    strStartsWith (od ++ "/index.md") (od ++ "/classes/") = false := by
  unfold strStartsWith
  simp only [String.data_append, List.append_assoc, isPrefixOf_append_cancel]
  rfl

theorem notClasses_mkdocs (od : String) :
    strStartsWith ("mkdocs.yml") (od ++ "/classes/") = false := by
  by_contra h
  have hb : ((od ++ "/classes/").data).isPrefixOf (("mkdocs.yml").data) = true := by
    revert h
    unfold strStartsWith
    cases ((od ++ "/classes/").data).isPrefixOf (("mkdocs.yml").data) <;> simp
  have hmem : '/' ∈ ("mkdocs.yml").data :=
    mem_of_isPrefixOf hb
      (by
        rw [String.data_append]
        exact List.mem_append_right _ (by decide))
  exact absurd hmem (by decide)

end GenerateDocs

namespace GenerateDocs

open PyStr

/-- C7: running the Documentation Generator with `slots_only` enabled writes
the slot pages, the enum pages, the index and the mkdocs configuration but
no class page (no written path lies under the `classes/` directory of the
output tree), the generated navigation contains no Classes group, the
index's Classes section is empty, while every local field's page under
`slots/` and the index's data-dictionary table are still produced. -/
theorem c7_slots_only_suppresses_classes (sv : SchemaView) (output_dir : String) :
    generate_filtered_docs sv output_dir true =
      (local_slots sv).map (fun p =>
        (output_dir ++ "/slots/" ++ p.1 ++ ".md", render_slot_page sv p.1 p.2)) ++
      (if !(local_enums sv).isEmpty then
        (local_enums sv).map (fun p =>
          (output_dir ++ "/enums/" ++ p.1 ++ ".md", render_enum_page sv p.1 p.2))
       else []) ++
      [(output_dir ++ "/index.md",
        render_index sv (local_slots sv) (local_classes sv) (local_enums sv) true)] ++
      [(("mkdocs.yml"),
        generate_mkdocs_config sv.schema (local_slots sv) (local_classes sv)
          (local_enums sv) true)] ∧
    (∀ pc ∈ generate_filtered_docs sv output_dir true,
      strStartsWith pc.1 (output_dir ++ "/classes/") = false) ∧
    ("  - Classes:") ∉ mkdocsNavLines (local_slots sv) (local_classes sv)
      (local_enums sv) true ∧
    indexClassesLines (local_classes sv) true = [] ∧
    (∀ p ∈ local_slots sv,
      (output_dir ++ "/slots/" ++ p.1 ++ ".md", render_slot_page sv p.1 p.2) ∈
        generate_filtered_docs sv output_dir true) ∧
    ("## Data Dictionary") ∈ render_index_lines sv (local_slots sv)
      (local_classes sv) (local_enums sv) true := by
  have hshape : generate_filtered_docs sv output_dir true =
      (local_slots sv).map (fun p =>
        (output_dir ++ "/slots/" ++ p.1 ++ ".md", render_slot_page sv p.1 p.2)) ++
      (if !(local_enums sv).isEmpty then
        (local_enums sv).map (fun p =>
          (output_dir ++ "/enums/" ++ p.1 ++ ".md", render_enum_page sv p.1 p.2))
       else []) ++
      [(output_dir ++ "/index.md",
        render_index sv (local_slots sv) (local_classes sv) (local_enums sv) true)] ++
      [(("mkdocs.yml"),
        generate_mkdocs_config sv.schema (local_slots sv) (local_classes sv)
          (local_enums sv) true)] := by
    simp [generate_filtered_docs]
  refine ⟨hshape, ?_, ?_, by simp [indexClassesLines], ?_, ?_⟩
  · intro pc hmem
    rw [hshape] at hmem
    rcases List.mem_append.mp hmem with hmem' | hmk
    · rcases List.mem_append.mp hmem' with hmem'' | hidx
      · rcases List.mem_append.mp hmem'' with hsl | hen
        · rcases List.mem_map.mp hsl with ⟨p, _, rfl⟩
          exact notClasses_slots output_dir p.1
        · revert hen
          split
          · intro hen
            rcases List.mem_map.mp hen with ⟨p, _, rfl⟩
            exact notClasses_enums output_dir p.1
          · intro hen
            simp at hen
      · rcases List.mem_singleton.mp hidx with rfl
        exact notClasses_index output_dir
    · rcases List.mem_singleton.mp hmk with rfl
      exact notClasses_mkdocs output_dir
  · intro hmem
    have hne : ∀ (x l1 y l2 : String),
        (((("      - " ++ x) ++ l1) ++ y) ++ l2) ≠ ("  - Classes:") := by
      intro x l1 y l2 h
      have hd := congrArg String.data h
      simp only [String.data_append, List.append_assoc] at hd
      simp at hd
    by_cases hle : (local_enums sv).isEmpty <;>
      simp [mkdocsNavLines, hle] at hmem
    · rcases hmem with ⟨x, _, heq⟩
      exact hne x _ x _ heq
    · rcases hmem with ⟨x, _, heq⟩ | ⟨x, _, heq⟩ <;> exact hne x _ x _ heq
  · intro p hp
    rw [hshape]
    exact List.mem_append_left _ (List.mem_append_left _
      (List.mem_append_left _ (List.mem_map_of_mem _ hp)))
  · simp [render_index_lines]

/-- Witness for C7: on a model that does contain a class, the slots-only run
produces no path under `classes/`, no Classes navigation group, and still
produces the slot page and the data dictionary. -/
theorem c7_slots_only_witness :
    local_classes c7sv ≠ [] ∧
    (∀ pc ∈ generate_filtered_docs c7sv ("docs") true,
      strStartsWith pc.1 ("docs" ++ "/classes/") = false) ∧
    ("  - Classes:") ∉ mkdocsNavLines (local_slots c7sv) (local_classes c7sv)
      (local_enums c7sv) true ∧
    ("## Data Dictionary") ∈ render_index_lines c7sv (local_slots c7sv)
      (local_classes c7sv) (local_enums c7sv) true :=
  ⟨by decide,
   (c7_slots_only_suppresses_classes c7sv ("docs")).2.1,
   (c7_slots_only_suppresses_classes c7sv ("docs")).2.2.1,
   (c7_slots_only_suppresses_classes c7sv ("docs")).2.2.2.2.2⟩

end GenerateDocs

namespace GenerateDocs

open PyStr

/-- C8: everywhere names are listed the scripts use `case_insensitive_sort`
(or the same keyed sort on slot definitions): the result is sorted
case-insensitively ascending, is a permutation of the input, and is stable —
any pair already in key order (in particular any tie under case-folding)
keeps its relative input order; and the enumeration example
{b ↦ "desc B", a ↦ ""} renders `a` before `b` with a's description cell
empty. -/
theorem c8_sorting_everywhere (names : List String) (slots : List SlotDef) :
    List.Sorted ciLe (case_insensitive_sort names) ∧
    List.Perm (case_insensitive_sort names) names ∧
    (∀ a b, ciLe a b → List.Sublist [a, b] names →
      List.Sublist [a, b] (case_insensitive_sort names)) ∧
    List.Sorted slotNameLe (sortSlotsByName slots) ∧
    List.Perm (sortSlotsByName slots) slots ∧
    (∀ a b, slotNameLe a b → List.Sublist [a, b] slots →
      List.Sublist [a, b] (sortSlotsByName slots)) ∧
    render_enum_page_lines c8sv ("SortEnum") c8enum =
      ["# SortEnum", "", "## Permitted Values", "", "| Value | Description |",
       "|-------|-------------|", "| `a` |  |", "| `b` | desc B |", ""] :=
  ⟨List.sorted_insertionSort ciLe names, List.perm_insertionSort ciLe names,
   fun _ _ hab hsub => List.pair_sublist_insertionSort hab hsub,
   List.sorted_insertionSort slotNameLe slots, List.perm_insertionSort slotNameLe slots,
   fun _ _ hab hsub => List.pair_sublist_insertionSort hab hsub,
   by decide⟩

/-- Witness for C8: a tie under case-folding (`A` and `a`) keeps its input
order through the sort. -/
theorem c8_sorting_everywhere_witness :
    ciLe ("A") ("a") ∧ List.Sublist [("A"), ("a")] [("A"), ("a")] ∧
    List.Sublist [("A"), ("a")] (case_insensitive_sort [("A"), ("a")]) :=
  ⟨by decide, List.Sublist.refl _,
   (c8_sorting_everywhere [("A"), ("a")] []).2.2.1 ("A") ("a") (by decide)
     (List.Sublist.refl _)⟩

/-- C9: a field whose definition carries no declared range is rendered with
the literal default range `string` in all three renderings: the class-page
attributes row and the index data-dictionary row show it inline-coded, and
the field page's Details table Range cell displays the (possibly decorated)
display of the value `string`, never an empty value. -/
theorem c9_range_defaults_to_string (sv : SchemaView) (slot : SlotDef)
    (h : slot.range = none) :
    pyOr slot.range ("string") = ("string") ∧
    attrRow slot =
      "| [" ++ slot.name ++ "](../slots/" ++ slot.name ++ ".md) | `" ++
        ("string") ++ "` | " ++ descCell slot.description 100 ++
        " | " ++ yesNo slot.required ++ " |" ∧
    (∀ sn, indexRowOf sn slot =
      "| [" ++ sn ++ "](slots/" ++ sn ++ ".md) | `" ++ ("string") ++ "` | " ++
        descCell slot.description 80 ++ " |") ∧
    ("| **Range** | " ++ rangeDisplay sv ("string") ++ " |") ∈ detailLines sv slot ∧
    (∃ pre post, rangeDisplay sv ("string") = pre ++ ("string") ++ post) := by
  refine ⟨by rw [h]; rfl, by rw [attrRow, h]; rfl, fun sn => by rw [indexRowOf, h]; rfl, ?_, ?_⟩
  · simp [detailLines, h, pyOr]
  · unfold rangeDisplay
    split
    · exact ⟨"[", "](../enums/" ++ ("string") ++ ".md)", by
        apply String.ext
        simp [String.data_append, List.append_assoc]⟩
    · split
      · exact ⟨"[", "](../classes/" ++ ("string") ++ ".md)", by
          apply String.ext
          simp [String.data_append, List.append_assoc]⟩
      · split
        · split
          · rename_i t heq
            split
            · exact ⟨"`", "` (" ++ t.uri.getD ("") ++ ")", by
                apply String.ext
                simp [String.data_append, List.append_assoc]⟩
            · exact ⟨"`", "`", by
                apply String.ext
                simp [String.data_append, List.append_assoc]⟩
          · exact ⟨"", "", by
              apply String.ext
              simp [String.data_append, List.append_assoc]⟩
        · exact ⟨"", "", by
            apply String.ext
            simp [String.data_append, List.append_assoc]⟩

/-- Witness for C9 on a concrete slot with no declared range. -/
theorem c9_range_default_witness :
    c9slot.range = none ∧
    attrRow c9slot = "| [depth](../slots/depth.md) | `string` | Measured depth | No |" :=
  ⟨rfl, by
    rw [(c9_range_defaults_to_string c9sv c9slot rfl).2.1]
    decide⟩

end GenerateDocs
